import Mathlib

/-!
Verification of the WASO assistant's live-voice core and chat helpers.

The definitions below are a shallow embedding of the TypeScript source:

* `onmessage`, `audioRun` — the playback scheduler of the live session
  component (`LiveInterface`): on each inbound message it clamps the
  scheduling cursor to the audio clock, schedules the decoded frame,
  advances the cursor by the frame duration, and on an interruption signal
  stops and clears every live buffer and resets the cursor to zero.
* `startSession`, `stopSession` — the session lifecycle happy path.
* `truncTowardZero`, `toInt16`, `captureSample` — the capture pipeline's
  float-to-int16 conversion (`int16[i] = inputData[i] * 32768`, which the
  JavaScript `Int16Array` store performs as ToInt16: truncation toward
  zero followed by a wrap into 16-bit two's complement).
* `decodeSample` — the playback decode (`dataInt16[i] / 32768.0`).
* `handleSpeak` — the chat view's text-to-speech guard.
* `initSessions` — the persisted-session bootstrap of the `App` component.

Times and audio samples are modelled as rationals; source nodes, sessions
and audio-context pairs are identified by natural numbers.
-/

/-- Scheduler state of the live session component: the scheduling cursor
`nextStartTimeRef` and the set of currently live buffer source nodes
`sourcesRef` (modelled as a list of node identifiers). -/
structure SchedState where
  nextStartTime : ℚ
  liveBuffers : List ℕ
  deriving DecidableEq

/-- An inbound live-session message: optionally one inline audio payload
(modelled by its decoded duration and a fresh source-node id) and the
`serverContent.interrupted` flag. -/
structure LiveMsg where
  audio : Option (ℚ × ℕ)
  interrupted : Bool
  deriving DecidableEq

/-- Result of one `onmessage` invocation: the new scheduler state, the
scheduled source (id and scheduled start time) if the message carried
audio, and the list of sources stopped by an interruption. -/
structure MsgResult where
  state : SchedState
  started : Option (ℕ × ℚ)
  stopped : List ℕ
  deriving DecidableEq

/-- The live session's `onmessage` callback, at audio-clock time `clock`.
If the message carries audio: `nextStartTime := max nextStartTime clock`,
the source starts at that time, the cursor advances by the frame duration
and the source joins the live set.  If the message carries the
interruption flag: every live source is stopped, the set is cleared and
the cursor is reset to zero. -/
def onmessage (clock : ℚ) (m : LiveMsg) (s : SchedState) : MsgResult :=
  let step :=
    match m.audio with
    | some (d, sid) =>
        let t0 := max s.nextStartTime clock
        (SchedState.mk (t0 + d) (sid :: s.liveBuffers), some (sid, t0))
    | none => (s, none)
  if m.interrupted then
    ⟨⟨0, []⟩, step.2, step.1.liveBuffers⟩
  else
    ⟨step.1, step.2, []⟩

/-- Reduction of `onmessage` on a message carrying audio. -/
theorem onmessage_audio (clock d : ℚ) (sid : ℕ) (intr : Bool) (s : SchedState) :
    onmessage clock ⟨some (d, sid), intr⟩ s =
      if intr then
        ⟨⟨0, []⟩, some (sid, max s.nextStartTime clock), sid :: s.liveBuffers⟩
      else
        ⟨⟨max s.nextStartTime clock + d, sid :: s.liveBuffers⟩,
          some (sid, max s.nextStartTime clock), []⟩ := by
  cases intr <;> rfl

/-- Reduction of `onmessage` on a message without audio. -/
theorem onmessage_noaudio (clock : ℚ) (intr : Bool) (s : SchedState) :
    onmessage clock ⟨none, intr⟩ s =
      if intr then ⟨⟨0, []⟩, none, s.liveBuffers⟩ else ⟨s, none, []⟩ := by
  cases intr <;> rfl

/-- Duration of the audio payload of a message (`0` when there is none). -/
def durOf (m : LiveMsg) : ℚ :=
  match m.audio with
  | some (d, _) => d
  | none => 0

/-- A run of the scheduler over a sequence of audio-carrying messages
without interruptions.  Each event is `(clock, duration, source id)`:
the audio-clock time when the message is handled, the decoded frame's
duration, and the fresh source-node id.  Returns the scheduled start
times in order. -/
def audioRun : List (ℚ × ℚ × ℕ) → SchedState → List ℚ
  | [], _ => []
  | (clock, d, sid) :: rest, s =>
      let r := onmessage clock ⟨some (d, sid), false⟩ s
      (match r.started with
       | some st => st.2
       | none => 0) :: audioRun rest r.state

theorem audioRun_cons (clock d : ℚ) (sid : ℕ) (rest : List (ℚ × ℚ × ℕ))
    (s : SchedState) :
    audioRun ((clock, d, sid) :: rest) s =
      max s.nextStartTime clock ::
        audioRun rest ⟨max s.nextStartTime clock + d, sid :: s.liveBuffers⟩ := by
  simp [audioRun, onmessage_audio]

/-- When every message of a run arrives while the audio clock is still at
or before the cursor, each frame starts exactly at the cursor, which walks
through the partial sums of the durations. -/
theorem audioRun_back_to_back (events : List (ℚ × ℚ × ℕ)) (s : SchedState)
    (h : ∀ i, i < events.length →
      (events.getD i (0, 0, 0)).1 ≤
        s.nextStartTime + ((events.map fun e => e.2.1).take i).sum) :
    audioRun events s =
      (List.range events.length).map
        (fun k => s.nextStartTime + ((events.map fun e => e.2.1).take k).sum) := by
  induction events generalizing s with
  | nil => simp [audioRun]
  | cons e rest ih =>
    obtain ⟨clock, d, sid⟩ := e
    have h0 : clock ≤ s.nextStartTime := by
      have := h 0 (by simp)
      simpa using this
    have hmax : max s.nextStartTime clock = s.nextStartTime := max_eq_left h0
    have ih2 := ih ⟨s.nextStartTime + d, sid :: s.liveBuffers⟩ (by
      intro i hi
      have h2 := h (i + 1) (by simpa using Nat.succ_lt_succ hi)
      simpa [List.take_succ_cons, add_assoc] using h2)
    rw [audioRun_cons, hmax, ih2]
    simp [List.range_succ_eq_map, List.map_map, Function.comp,
      List.take_succ_cons, add_assoc]

/-- Claim C1: starting from a fresh cursor, for a sequence of frames
delivered back-to-back (each handled before the audio clock passes the
previous frame's scheduled end), frame `k` is scheduled to start at the
sum of the durations of frames `1..k-1`: strict concatenation with no
overlap. -/
theorem scheduled_starts_concatenate (events : List (ℚ × ℚ × ℕ)) (l : List ℕ)
    (h : ∀ i, i < events.length →
      (events.getD i (0, 0, 0)).1 ≤ ((events.map fun e => e.2.1).take i).sum) :
    audioRun events ⟨0, l⟩ =
      (List.range events.length).map
        (fun k => ((events.map fun e => e.2.1).take k).sum) := by
  have h2 := audioRun_back_to_back events ⟨0, l⟩ (by
    intro i hi
    simpa using h i hi)
  simpa using h2

/-- Three frames of duration one half arriving back-to-back. -/
def demoEvents : List (ℚ × ℚ × ℕ) := [(0, 1/2, 0), (1/4, 1/2, 1), (3/4, 1/2, 2)]

/-- Witness for C1: three back-to-back frames of half a second are
scheduled at start times 0, 0.5 and 1. -/
theorem scheduled_starts_concatenate_witness :
    (∀ i, i < demoEvents.length →
      (demoEvents.getD i (0, 0, 0)).1 ≤
        ((demoEvents.map fun e => e.2.1).take i).sum) ∧
    audioRun demoEvents ⟨0, []⟩ = [0, 1/2, 1] := by
  have hhyp : ∀ i, i < demoEvents.length →
      (demoEvents.getD i (0, 0, 0)).1 ≤
        ((demoEvents.map fun e => e.2.1).take i).sum := by
    intro i hi
    simp only [demoEvents, List.length_cons, List.length_nil] at hi
    interval_cases i <;> norm_num [demoEvents]
  refine ⟨hhyp, ?_⟩
  rw [scheduled_starts_concatenate demoEvents [] hhyp]
  norm_num [demoEvents, List.range_succ, List.sum_cons, List.take_succ_cons]

/-- Claim C2: a message carrying the interruption signal stops every
source that was live when it arrived, leaves the live set empty and
resets the cursor to zero, whatever the state was. -/
theorem interrupt_flushes_and_resets (clock : ℚ) (m : LiveMsg) (s : SchedState)
    (h : m.interrupted = true) :
    (onmessage clock m s).state = ⟨0, []⟩ ∧
    ∀ b ∈ s.liveBuffers, b ∈ (onmessage clock m s).stopped := by
  obtain ⟨audio, intr⟩ := m
  subst h
  cases audio with
  | none => simp [onmessage_noaudio]
  | some p =>
    obtain ⟨d, sid⟩ := p
    refine ⟨by simp [onmessage_audio], ?_⟩
    intro b hb
    simp [onmessage_audio]
    exact Or.inr hb

/-- Witness for C2: interruption with two live buffers (and a new frame in
the same message) empties the set and zeroes the cursor. -/
theorem interrupt_flushes_and_resets_witness :
    (LiveMsg.mk (some (1, 5)) true).interrupted = true ∧
    ((onmessage 0 ⟨some (1, 5), true⟩ ⟨2, [3, 4]⟩).state = ⟨0, []⟩ ∧
      ∀ b ∈ ([3, 4] : List ℕ),
        b ∈ (onmessage 0 ⟨some (1, 5), true⟩ ⟨2, [3, 4]⟩).stopped) :=
  ⟨rfl, interrupt_flushes_and_resets 0 ⟨some (1, 5), true⟩ ⟨2, [3, 4]⟩ rfl⟩

/-- Claim C3: when the audio clock has already passed the cursor (a gap),
the next frame is scheduled at the current clock time, not at the stale
cursor. -/
theorem gap_clamps_start_to_clock (clock d : ℚ) (sid : ℕ) (s : SchedState)
    (h : s.nextStartTime < clock) :
    (onmessage clock ⟨some (d, sid), false⟩ s).started = some (sid, clock) := by
  simp [onmessage_audio, max_eq_right (le_of_lt h)]

/-- Witness for C3: cursor at 1, clock already at 2 — the frame starts
at 2. -/
theorem gap_clamps_start_to_clock_witness :
    (1 : ℚ) < 2 ∧
    (onmessage 2 ⟨some (5, 0), false⟩ ⟨1, []⟩).started = some (0, 2) :=
  ⟨by norm_num, gap_clamps_start_to_clock 2 5 0 ⟨1, []⟩ (by norm_num)⟩

/-- Full state of the live session component: the UI flags, the error
message, the held remote session handle (`sessionRef`), the remote
sessions opened and not yet closed, the held audio-context pair
(`audioContextRef`/`outputAudioContextRef`, modelled as one pair), the
context pairs created and not yet closed, the scheduler state, and a
counter supplying fresh identifiers. -/
structure SysState where
  isActive : Bool
  isConnecting : Bool
  errorMsg : Option String
  session : Option ℕ
  openSessions : List ℕ
  ctxPair : Option ℕ
  openCtxPairs : List ℕ
  sched : SchedState
  nextId : ℕ
  deriving DecidableEq

/-- The component's initial state: inactive, no session, no contexts,
cursor at zero, no live buffers. -/
def initialSys : SysState :=
  ⟨false, false, none, none, [], none, [], ⟨0, []⟩, 0⟩

/-- `startSession` on its successful path (API key present, microphone
granted, remote connection opens).  It clears the error message, creates
a fresh audio-context pair and a fresh remote session, and stores both —
overwriting whatever handles were held before, without closing them.  The
source contains no check of the current session state. -/
def startSession (s : SysState) : SysState :=
  { s with
    errorMsg := none
    isActive := true
    isConnecting := false
    session := some s.nextId
    openSessions := s.nextId :: s.openSessions
    ctxPair := some s.nextId
    openCtxPairs := s.nextId :: s.openCtxPairs
    nextId := s.nextId + 1 }

/-- `stopSession`: closes the remote session if one is held and clears
the handle, lowers both UI flags, stops and clears every live buffer,
resets the cursor to zero, and closes the held audio contexts (the
context refs themselves are not cleared in the source, so `ctxPair` is
kept). -/
def stopSession (s : SysState) : SysState :=
  { s with
    session := none
    openSessions :=
      match s.session with
      | some k => s.openSessions.erase k
      | none => s.openSessions
    isActive := false
    isConnecting := false
    sched := ⟨0, []⟩
    openCtxPairs :=
      match s.ctxPair with
      | some k => s.openCtxPairs.erase k
      | none => s.openCtxPairs }

/-- The idle configuration the claims describe: no session handle held,
no live buffers, cursor at zero, neither active nor connecting. -/
def IsIdle (s : SysState) : Prop :=
  s.session = none ∧ s.sched = ⟨0, []⟩ ∧
  s.isActive = false ∧ s.isConnecting = false

/-- Claim C5 counterexample: from the initial state, one `startSession`
reaches the active state holding session 0; a second `startSession` from
there is not a no-op and leaves two remote sessions open at once (the
first one is never closed). -/
theorem double_start_opens_second_session :
    (startSession initialSys).isActive = true ∧
    (startSession initialSys).session = some 0 ∧
    startSession (startSession initialSys) ≠ startSession initialSys ∧
    (startSession (startSession initialSys)).openSessions = [1, 0] ∧
    (startSession (startSession initialSys)).openSessions.length = 2 := by
  refine ⟨rfl, rfl, ?_, rfl, rfl⟩
  intro hcontra
  have := congrArg SysState.nextId hcontra
  simp [startSession, initialSys] at this

/-- Claim C5 (amended): `startSession` has no session-state guard — run
while a session `k` is held and open, its successful path opens a fresh
session, stores the new handle in place of the old one, and leaves `k`
open, so the number of open remote sessions grows by one. -/
theorem start_while_active_leaks_session (s : SysState) (k : ℕ)
    (_hheld : s.session = some k) (hopen : k ∈ s.openSessions) :
    (startSession s).openSessions.length = s.openSessions.length + 1 ∧
    k ∈ (startSession s).openSessions ∧
    (startSession s).session = some s.nextId := by
  refine ⟨by simp [startSession], ?_, rfl⟩
  simp [startSession]
  exact Or.inr hopen

/-- Witness for the amended C5: after one successful start the component
holds open session 0; a second start leaves 0 open alongside the new
session 1. -/
theorem start_while_active_leaks_session_witness :
    (startSession initialSys).session = some 0 ∧
    0 ∈ (startSession initialSys).openSessions ∧
    ((startSession (startSession initialSys)).openSessions.length =
        (startSession initialSys).openSessions.length + 1 ∧
      0 ∈ (startSession (startSession initialSys)).openSessions ∧
      (startSession (startSession initialSys)).session =
        some (startSession initialSys).nextId) :=
  ⟨rfl, by simp [startSession, initialSys],
    start_while_active_leaks_session (startSession initialSys) 0 rfl
      (by simp [startSession, initialSys])⟩

/-- Claim C6: `stopSession` is valid from every state and never errors
(it is a total function); one call leaves the component idle — no session
handle, empty live-buffer set, cursor zero — and a second call in a row
leaves it idle again, so calling it twice, or calling it while already
idle, is harmless. -/
theorem stop_idempotent_leaves_idle (s : SysState) :
    IsIdle (stopSession s) ∧ IsIdle (stopSession (stopSession s)) := by
  constructor <;> exact ⟨rfl, rfl, rfl, rfl⟩

/-- Claim C7: the scheduling cursor never decreases across a scheduler
step, except for the explicit resets to zero: a message without the
interruption flag (and a nonnegative frame duration) can only move the
cursor forward, a message with the interruption flag sets it to zero, and
`stopSession` sets it to zero. -/
theorem cursor_monotone_except_reset (clock : ℚ) (m : LiveMsg) (s : SchedState)
    (sys : SysState) (hd : 0 ≤ durOf m) :
    (m.interrupted = false →
      s.nextStartTime ≤ (onmessage clock m s).state.nextStartTime) ∧
    (m.interrupted = true → (onmessage clock m s).state.nextStartTime = 0) ∧
    (stopSession sys).sched.nextStartTime = 0 := by
  obtain ⟨audio, intr⟩ := m
  refine ⟨?_, ?_, rfl⟩
  · intro hfalse
    subst hfalse
    cases audio with
    | none => simp [onmessage_noaudio]
    | some p =>
      obtain ⟨d, sid⟩ := p
      have hd2 : 0 ≤ d := by simpa [durOf] using hd
      have e := onmessage_audio clock d sid false s
      rw [if_neg (by simp)] at e
      rw [e]
      calc s.nextStartTime ≤ max s.nextStartTime clock := le_max_left _ _
        _ ≤ max s.nextStartTime clock + d := by linarith
  · intro htrue
    subst htrue
    cases audio with
    | none => simp [onmessage_noaudio]
    | some p =>
      obtain ⟨d, sid⟩ := p
      simp [onmessage_audio]

/-- Witness for C7 at a concrete input: a frame of duration 3 at clock 7
from cursor 2, and a stop from the initial state. -/
theorem cursor_monotone_except_reset_witness :
    (0 : ℚ) ≤ durOf ⟨some (3, 1), false⟩ ∧
    (((LiveMsg.mk (some (3, 1)) false).interrupted = false →
        (2 : ℚ) ≤ (onmessage 7 ⟨some (3, 1), false⟩ ⟨2, []⟩).state.nextStartTime) ∧
      ((LiveMsg.mk (some (3, 1)) false).interrupted = true →
        (onmessage 7 ⟨some (3, 1), false⟩ ⟨2, []⟩).state.nextStartTime = 0) ∧
      (stopSession initialSys).sched.nextStartTime = 0) :=
  ⟨by norm_num [durOf],
    cursor_monotone_except_reset 7 ⟨some (3, 1), false⟩ ⟨2, []⟩ initialSys
      (by norm_num [durOf])⟩

/-- Floor of a rational as an integer, computed as in `Rat.floor`:
`q.num / q.den` with Euclidean division. -/
def ratFloor (q : ℚ) : ℤ := q.num / q.den

theorem ratFloor_eq_floor (q : ℚ) : ratFloor q = ⌊q⌋ := by
  rw [Rat.floor_def]
  rfl

/-- Truncation of a rational toward zero — the first half of the
JavaScript ToInt16 conversion applied when a float is stored into an
`Int16Array`. -/
def truncTowardZero (q : ℚ) : ℤ :=
  if q < 0 then -ratFloor (-q) else ratFloor q

theorem truncTowardZero_eq (q : ℚ) :
    truncTowardZero q = if q < 0 then ⌈q⌉ else ⌊q⌋ := by
  unfold truncTowardZero
  by_cases h : q < 0 <;> simp [h, ratFloor_eq_floor, Int.floor_neg]

/-- Wrap an integer into the signed 16-bit range, as the JavaScript
ToInt16 conversion does (reduce modulo 2^16, then reinterpret as
signed). -/
def toInt16 (n : ℤ) : ℤ := (n + 32768) % 65536 - 32768

/-- The capture pipeline's per-sample conversion, from the source:
`int16[i] = inputData[i] * 32768`, where the `Int16Array` store performs
ToInt16 — truncation toward zero, then a wrap into 16 bits. -/
def captureSample (s : ℚ) : ℤ := toInt16 (truncTowardZero (s * 32768))

/-- Modelled from the spec: the conversion the spec describes instead,
`round_to_nearest(sample * 32768)` (round half up, Mathlib's `round`). -/
def specCaptureSample (s : ℚ) : ℤ := ratFloor (s * 32768 + 1/2)

theorem specCaptureSample_eq_round (s : ℚ) :
    specCaptureSample s = round (s * 32768) := by
  rw [specCaptureSample, round_eq, ratFloor_eq_floor]

/-- The playback decode, from `decodeAudioData` in the source:
`channelData[i] = dataInt16[i] / 32768.0`. -/
def decodeSample (v : ℤ) : ℚ := (v : ℚ) / 32768

/-- Claim C4 counterexample: the capture conversion is not
round-to-nearest.  The in-range sample `7/327680` maps `s * 32768 = 0.7`
to `0` (truncation toward zero), while rounding to nearest yields `1`. -/
theorem capture_not_round_to_nearest :
    (-1 : ℚ) ≤ 7/327680 ∧ (7 : ℚ)/327680 ≤ 1 ∧
    captureSample (7/327680) = 0 ∧
    specCaptureSample (7/327680) = 1 ∧
    captureSample (7/327680) ≠ specCaptureSample (7/327680) := by
  have h1 : captureSample (7/327680) = 0 := by
    have h7 : (7 : ℚ)/327680 * 32768 = 7/10 := by norm_num
    rw [captureSample, h7, truncTowardZero_eq]
    norm_num
    decide
  have h2 : specCaptureSample (7/327680) = 1 := by
    have h7 : (7 : ℚ)/327680 * 32768 + 1/2 = 6/5 := by norm_num
    rw [specCaptureSample, h7, ratFloor_eq_floor]
    norm_num
  refine ⟨by norm_num, by norm_num, h1, h2, by rw [h1, h2]; norm_num⟩

/-- Claim C4 (amended): for each 32-bit float input sample `s` with
`-1 ≤ s < 1`, the capture pipeline converts `s` to the 16-bit signed
integer obtained by truncating `s * 32768` toward zero; the value is
already in the signed 16-bit range, so the wrap of the `Int16Array` store
does not alter it.  (At `s = 1` the product 32768 would wrap to
`-32768`.) -/
theorem capture_truncates_toward_zero (s : ℚ) (h1 : -1 ≤ s) (h2 : s < 1) :
    captureSample s = truncTowardZero (s * 32768) ∧
    -32768 ≤ captureSample s ∧ captureSample s ≤ 32767 := by
  have hx1 : (-32768 : ℚ) ≤ s * 32768 := by nlinarith
  have hx2 : s * 32768 < 32768 := by nlinarith
  have ht1 : -32768 ≤ truncTowardZero (s * 32768) := by
    rw [truncTowardZero_eq]
    by_cases hq : s * 32768 < 0
    · rw [if_pos hq]
      have : ((-32768 : ℤ) : ℚ) ≤ s * 32768 := by exact_mod_cast hx1
      calc (-32768 : ℤ) = ⌈((-32768 : ℤ) : ℚ)⌉ := (Int.ceil_intCast _).symm
        _ ≤ ⌈s * 32768⌉ := Int.ceil_le_ceil this
    · rw [if_neg hq]
      push_neg at hq
      have h0 : (0 : ℤ) ≤ ⌊s * 32768⌋ := Int.floor_nonneg.mpr hq
      omega
  have ht2 : truncTowardZero (s * 32768) ≤ 32767 := by
    rw [truncTowardZero_eq]
    by_cases hq : s * 32768 < 0
    · rw [if_pos hq]
      have h0 : ⌈s * 32768⌉ ≤ 0 := by
        rw [Int.ceil_le]
        exact_mod_cast le_of_lt hq
      omega
    · rw [if_neg hq]
      have h0 : ⌊s * 32768⌋ < 32768 := by
        rw [Int.floor_lt]
        exact_mod_cast hx2
      omega
  have hwrap : captureSample s = truncTowardZero (s * 32768) := by
    rw [captureSample, toInt16]
    have := Int.emod_eq_of_lt
      (a := truncTowardZero (s * 32768) + 32768) (b := 65536)
      (by omega) (by omega)
    omega
  exact ⟨hwrap, by omega, by omega⟩

/-- Witness for the amended C4 at `s = -1`: the conversion yields
`-32768`, the truncation of `-32768`, within the signed 16-bit range. -/
theorem capture_truncates_toward_zero_witness :
    ((-1 : ℚ) ≤ -1 ∧ (-1 : ℚ) < 1) ∧
    (captureSample (-1) = truncTowardZero ((-1) * 32768) ∧
      -32768 ≤ captureSample (-1) ∧ captureSample (-1) ≤ 32767) :=
  ⟨⟨le_refl _, by norm_num⟩,
    capture_truncates_toward_zero (-1) (le_refl _) (by norm_num)⟩

/-- Claim C8: decoding an int16 PCM sample to a float (`v / 32768.0`) and
re-encoding it through the capture conversion (`float * 32768` narrowed
to int16) reproduces the original sample exactly — in particular within
one quantization step. -/
theorem pcm_roundtrip_exact (v : ℤ) (h1 : -32768 ≤ v) (h2 : v ≤ 32767) :
    captureSample (decodeSample v) = v ∧
    (captureSample (decodeSample v) - v).natAbs ≤ 1 := by
  have hm : decodeSample v * 32768 = (v : ℚ) := by
    rw [decodeSample]
    field_simp
  have htr : truncTowardZero ((v : ℚ)) = v := by
    rw [truncTowardZero_eq]
    by_cases h : ((v : ℚ)) < 0
    · simp [h, Int.ceil_intCast]
    · simp [h, Int.floor_intCast]
  have hcap : captureSample (decodeSample v) = toInt16 v := by
    rw [captureSample, hm, htr]
  have h16 : toInt16 v = v := by
    rw [toInt16]
    have := Int.emod_eq_of_lt (a := v + 32768) (b := 65536) (by omega) (by omega)
    omega
  rw [hcap, h16]
  exact ⟨rfl, by simp⟩

/-- Witness for C8 at the in-range sample `-1234`. -/
theorem pcm_roundtrip_exact_witness :
    ((-32768 : ℤ) ≤ -1234 ∧ (-1234 : ℤ) ≤ 32767) ∧
    (captureSample (decodeSample (-1234)) = -1234 ∧
      (captureSample (decodeSample (-1234)) - (-1234)).natAbs ≤ 1) :=
  ⟨⟨by norm_num, by norm_num⟩,
    pcm_roundtrip_exact (-1234) (by norm_num) (by norm_num)⟩

/-- Text-to-speech state of the chat view: `isSpeaking` holds the index
of the message currently being played (or `none`), and `requests` counts
the TTS requests issued to the backend. -/
structure ChatState where
  isSpeaking : Option ℕ
  requests : ℕ
  deriving DecidableEq

/-- The chat view's `handleSpeak`: if a playback is already in progress
(`isSpeaking !== null`) it returns immediately; otherwise it marks the
message as speaking and issues one TTS request (successful path;
completion and error paths clear the flag again and are outside the
claims below). -/
def handleSpeak (index : ℕ) (s : ChatState) : ChatState :=
  if s.isSpeaking.isSome then s
  else ⟨some index, s.requests + 1⟩

/-- Claim C9: while a TTS playback is in progress, `handleSpeak` is a
no-op — it changes no state and issues no request — so at most one
playback exists at a time. -/
theorem speak_noop_while_speaking (i j : ℕ) (s : ChatState)
    (h : s.isSpeaking = some j) :
    handleSpeak i s = s := by
  rw [handleSpeak, h]
  rfl

/-- Witness for C9: message 3 is playing; asking to speak message 7
changes nothing (in particular the request count stays at 5). -/
theorem speak_noop_while_speaking_witness :
    (ChatState.mk (some 3) 5).isSpeaking = some 3 ∧
    handleSpeak 7 ⟨some 3, 5⟩ = ⟨some 3, 5⟩ :=
  ⟨rfl, speak_noop_while_speaking 7 3 ⟨some 3, 5⟩ rfl⟩

/-- The `App` component's session-list bootstrap: read the blob stored
under the fixed storage key (`none` when absent), and if present try to
parse it, falling back to the empty list when parsing throws.  The JSON
parser is the browser built-in, so it is a parameter here; `parse s =
none` models `JSON.parse` throwing. -/
def initSessions {α : Type} (parse : String → Option (List α))
    (saved : Option String) : List α :=
  match saved with
  | some s =>
      match parse s with
      | some v => v
      | none => []
  | none => []

/-- Claim C10: when the stored blob fails to parse the session list
starts empty instead of the application throwing, and when no blob is
stored it also starts empty. -/
theorem init_sessions_fallback_empty {α : Type}
    (parse : String → Option (List α)) (s : String) (h : parse s = none) :
    initSessions parse (some s) = [] ∧ initSessions parse none = [] := by
  constructor
  · rw [initSessions, h]
  · rfl

/-- A stored blob that is not valid JSON. -/
def badBlob : String := "not json"

/-- Witness for C10 with a parser that rejects the stored blob. -/
theorem init_sessions_fallback_empty_witness :
    (fun _ : String => (none : Option (List ℕ))) badBlob = none ∧
    (initSessions (fun _ : String => (none : Option (List ℕ))) (some badBlob) = [] ∧
      initSessions (fun _ : String => (none : Option (List ℕ))) none = []) :=
  ⟨rfl, init_sessions_fallback_empty (fun _ => none) badBlob rfl⟩
